import Mathlib

/-!
Verification of the crawl scheduler in src/parsers/catalog_parser.py
(Rusneb-Downloader).

The Python module drives a pool of workers over a shared frontier
(`PageData`): each worker repeatedly asks `_get_next_tasks` for a chunk of
page tasks (pending retries first, then freshly allocated page numbers from
the `next_page` counter) and runs `_process_page` on each, which fetches the
page, classifies failures for retry, and on success records extracted item
identifiers into the frontier.

We embed the frontier state and the two state-transforming operations as
pure Lean functions, threading the state explicitly; the fetch + HTML
extraction step (an external effect) is represented by a `FetchOutcome`
oracle value handed to `processPage`.  A single worker's loop becomes the
step function `workerIter` on `WState`.
-/

/-- `ParseRequest`: a target query string and a mode flag (search vs.
catalog browse), immutable during a run. -/
structure ParseRequest where
  query : String
  is_search : Bool
deriving DecidableEq

/-- Modelled from the spec: the file src/models/page_task.py is not among the
sources; per the spec a `PageTask` carries a page number, owning worker id,
attempt count, last error, the list of newly discovered items, and the flags
`processed` and `no_more_pages`. -/
structure PageTask where
  request : ParseRequest
  worker_id : Nat
  page_number : Nat
  attempt_count : Nat
  last_error : Option String
  items : List String
  processed : Bool
  no_more_pages : Bool
deriving DecidableEq

/-- Modelled from the spec: a freshly created task (as minted by
`_get_next_tasks`) starts with attempt count 0, no recorded error, no items
and both flags cleared. -/
def mkTask (request : ParseRequest) (worker_id page_number : Nat) : PageTask :=
  ⟨request, worker_id, page_number, 0, none, [], false, false⟩

/-- The shared frontier (`PageData` in the Python source).  `pending_tasks`
is the FIFO retry queue (a deque: popped at the front, appended at the back),
`processed_pages` the set of completed page numbers, `download_queue` the
ordered queue of discovered item ids, `downloaded` the set of already
fetched ids, `max_page_found` the high-water page mark, and the two one-way
flags. -/
structure PageData where
  pending_tasks : List PageTask
  processed_pages : Finset Nat
  download_queue : List String
  downloaded : Finset String
  max_page_found : Nat
  no_more_pages : Bool
  has_error : Bool
deriving DecidableEq

/-- Modelled from the spec: the file src/models/page_data.py is not among the
sources; the frontier of a fresh run has empty queues and sets, high-water
mark 0 and both flags false. -/
def initData : PageData :=
  ⟨[], ∅, [], ∅, 0, false, false⟩

/-- The outcome of one fetch + extraction attempt for a page, as observed by
`_process_page`: either a response (status code plus the item ids the
site-specific extractor pulls from the body), or one of the exception
classes the Python code catches (`httpx.ReadError`, `httpx.TimeoutException`,
any other exception). -/
inductive FetchOutcome where
  | response (status_code : Nat) (items : List String)
  | readError
  | timeout
  | unexpected (msg : String)
deriving DecidableEq

/-- An outcome the Python code treats as a failed attempt: any caught
exception, or a response whose status code is not 200. -/
def FetchOutcome.isFailure : FetchOutcome → Bool
  | .response s _ => decide (s ≠ 200)
  | .readError => true
  | .timeout => true
  | .unexpected _ => true

/-- `task.attempt_count += 1; task.last_error = ...` — the bookkeeping every
failure branch of `_process_page` performs on the task. -/
def bumpFailed (task : PageTask) (err : String) : PageTask :=
  { task with attempt_count := task.attempt_count + 1, last_error := some err }

/-- `if task.attempt_count < self.max_retries: data.pending_tasks.append(task)`
— every failure branch re-enqueues the (already bumped) task exactly when its
attempt count is still below the retry ceiling. -/
def requeueIfRetryable (max_retries : Nat) (data : PageData) (task : PageTask) :
    PageData :=
  if task.attempt_count < max_retries then
    { data with pending_tasks := data.pending_tasks ++ [task] }
  else data

/-- `CatalogParser._process_page`, with the fetch + extraction effect
abstracted into the `outcome` argument.  Returns the updated frontier and
the updated task.

Branches, in source order: (1) a page already in `processed_pages`
short-circuits as a no-op success; (2) a non-200 status or a caught
exception bumps the attempt count, records the error and re-enqueues the
task if retryable; (3) an empty extraction sets the frontier's
`no_more_pages` when the page number exceeds `max_page_found`, marks the
task's own `no_more_pages`, and records nothing; (4) otherwise the items not
already in `download_queue` or `downloaded` are appended to
`download_queue`, `max_page_found` is raised to the page number and the page
enters `processed_pages`.  (The `if not e` guard in the Python generic
`except` branch is dead code — an exception instance is always truthy — so
it is not modelled.) -/
def processPage (max_retries : Nat) (data : PageData) (task : PageTask)
    (outcome : FetchOutcome) : PageData × PageTask :=
  if task.page_number ∈ data.processed_pages then
    (data, { task with processed := true })
  else
    match outcome with
    | .response status items =>
      if status ≠ 200 then
        let t := bumpFailed task ("HTTP error " ++ toString status)
        (requeueIfRetryable max_retries data t, t)
      else if items = [] then
        let d :=
          if data.max_page_found < task.page_number then
            { data with no_more_pages := true }
          else data
        (d, { task with no_more_pages := true })
      else
        let new_items := items.filter fun i =>
          decide (i ∉ data.download_queue ∧ i ∉ data.downloaded)
        let d := { data with
          download_queue := data.download_queue ++ new_items,
          max_page_found := max data.max_page_found task.page_number,
          processed_pages := insert task.page_number data.processed_pages }
        (d, { task with items := new_items, processed := true })
    | .readError =>
      let t := bumpFailed task "Read error"
      (requeueIfRetryable max_retries data t, t)
    | .timeout =>
      let t := bumpFailed task "Timeout"
      (requeueIfRetryable max_retries data t, t)
    | .unexpected msg =>
      let t := bumpFailed task msg
      (requeueIfRetryable max_retries data t, t)

/-- `CatalogParser._get_next_tasks`: pop up to `count` tasks from the front
of `pending_tasks` (stamping the worker id); if still short of `count` and
the frontier is not exhausted, reserve the page numbers
`next_page + 1 … next_page + (count − taken)` from the cursor, advance the
cursor past them, and mint fresh tasks for those numbers not already in
`processed_pages`.  Returns the task list, the new cursor value and the
updated frontier. -/
def getNextTasks (request : ParseRequest) (worker_id count next_page : Nat)
    (data : PageData) : List PageTask × Nat × PageData :=
  let k := min count data.pending_tasks.length
  let taken := (data.pending_tasks.take k).map fun t =>
    { t with worker_id := worker_id }
  let d := { data with pending_tasks := data.pending_tasks.drop k }
  if taken.length < count ∧ d.no_more_pages = false then
    let fresh := ((List.range' (next_page + 1) (count - taken.length)).filter
        fun p => decide (p ∉ d.processed_pages)).map fun p =>
      mkTask request worker_id p
    (taken ++ fresh, next_page + (count - taken.length), d)
  else
    (taken, next_page, d)

/-- The `for task in tasks:` body of `CatalogParser.worker` specialised to a
run in which every fetch succeeds with status 200 and the extractor yields
`src page` for page number `page`: process each task in order, stopping
early as soon as a task comes back with its `no_more_pages` flag set. -/
def processChunk (max_retries : Nat) (src : Nat → List String) :
    PageData → List PageTask → PageData
  | data, [] => data
  | data, t :: ts =>
    let r := processPage max_retries data t (.response 200 (src t.page_number))
    if r.2.no_more_pages then r.1
    else processChunk max_retries src r.1 ts

/-- State of one worker's loop: the shared cursor, the shared frontier, and
whether the worker has left its `while` loop. -/
structure WState where
  next_page : Nat
  data : PageData
  done : Bool
deriving DecidableEq

/-- One iteration of the `while not self.stop_event.is_set():` loop of
`CatalogParser.worker`, for a single worker (worker id 0) against a
success-only fetch oracle `src`: pull a chunk; if it is empty, exit when
`no_more_pages` is set and the pending queue is drained (otherwise sleep and
retry); else process the chunk. -/
def workerIter (request : ParseRequest) (chunk max_retries : Nat)
    (src : Nat → List String) (s : WState) : WState :=
  if s.done then s
  else
    let r := getNextTasks request 0 chunk s.next_page s.data
    if r.1 = [] then
      if r.2.2.no_more_pages = true ∧ r.2.2.pending_tasks = [] then
        ⟨r.2.1, r.2.2, true⟩
      else ⟨r.2.1, r.2.2, false⟩
    else ⟨r.2.1, processChunk max_retries src r.2.2 r.1, false⟩

/-- The worker loop's start state: cursor at 0, fresh frontier, running. -/
def initWState : WState :=
  ⟨0, initData, false⟩

/-- Retry drain loop for a task whose every fetch attempt yields the failing
outcome `out`: process the task, and as long as `_process_page` re-enqueued
it, pop it off the pending queue and process it again.  Returns the number
of attempts made (within `fuel`) and the final frontier. -/
def failAttempts (max_retries : Nat) (out : FetchOutcome) :
    Nat → PageData → PageTask → Nat × PageData
  | 0, data, _ => (0, data)
  | fuel + 1, data, task =>
    let r := processPage max_retries data task out
    match r.1.pending_tasks with
    | [] => (1, r.1)
    | t :: rest =>
      let r2 := failAttempts max_retries out fuel
        { r.1 with pending_tasks := rest } t
      (r2.1 + 1, r2.2)

/-- The three-page scenario source: page 1 yields `[a, b]`, page 2 yields
`[b, c]`, every later page is empty. -/
def scenarioSrc : Nat → List String := fun p =>
  if p = 1 then ["a", "b"]
  else if p = 2 then ["b", "c"]
  else []

/-- The completed scenario run: one worker, chunk size 3, drained to its
terminal state (two loop iterations suffice: one processes pages 1–3, the
next observes exhaustion and exits). -/
def scenarioFinal : WState :=
  (workerIter ⟨"q", false⟩ 3 3 scenarioSrc)^[2] initWState

/-- A concrete request used in concrete instantiations. -/
def req0 : ParseRequest :=
  ⟨"q", false⟩

/-- A fresh task for page 1. -/
def task1 : PageTask :=
  mkTask req0 0 1

/-- A fresh task for page 3. -/
def task3 : PageTask :=
  mkTask req0 0 3

/-- A frontier whose high-water mark (5) already exceeds page 3. -/
def dataMax5 : PageData :=
  ⟨[], ∅, [], ∅, 5, false, false⟩

/-- A frontier that has already processed page 1. -/
def dataDone1 : PageData :=
  ⟨[], {1}, [], ∅, 1, false, false⟩

/-- Invariant of the worker loop while the frontier is not exhausted, for a
run in which every fetch succeeds: the worker is still running, the retry
queue is empty (nothing ever fails), the exhaustion flag is down, and both
the high-water mark and every processed page number are bounded by the
cursor. -/
def WInv (s : WState) : Prop :=
  s.done = false ∧ s.data.pending_tasks = [] ∧ s.data.no_more_pages = false ∧
  s.data.max_page_found ≤ s.next_page ∧
  ∀ p ∈ s.data.processed_pages, p ≤ s.next_page

/-! ## Branch characterisations of `processPage` -/

/-- A page already in `processed_pages` short-circuits: the frontier is
returned untouched and the task is merely marked processed. -/
theorem processPage_mem (max_retries : Nat) (data : PageData) (task : PageTask)
    (out : FetchOutcome) (h : task.page_number ∈ data.processed_pages) :
    processPage max_retries data task out = (data, { task with processed := true }) := by
  simp [processPage, h]

/-- Every failing outcome takes the bump-and-maybe-requeue path. -/
theorem processPage_fail (max_retries : Nat) (data : PageData) (task : PageTask)
    (out : FetchOutcome) (h : task.page_number ∉ data.processed_pages)
    (hf : out.isFailure = true) :
    ∃ e, processPage max_retries data task out =
      (requeueIfRetryable max_retries data (bumpFailed task e), bumpFailed task e) := by
  cases out with
  | response s items =>
    have hs : s ≠ 200 := by simpa [FetchOutcome.isFailure] using hf
    exact ⟨"HTTP error " ++ toString s, by simp [processPage, h, hs]⟩
  | readError => exact ⟨"Read error", by simp [processPage, h]⟩
  | timeout => exact ⟨"Timeout", by simp [processPage, h]⟩
  | unexpected msg => exact ⟨msg, by simp [processPage, h]⟩

/-- A successful fetch of an unprocessed page with an empty extraction:
the frontier's flag is raised exactly when the page is beyond the high-water
mark, and the task's own flag is raised unconditionally. -/
theorem processPage_empty (max_retries : Nat) (data : PageData) (task : PageTask)
    (h : task.page_number ∉ data.processed_pages) :
    processPage max_retries data task (.response 200 []) =
      ((if data.max_page_found < task.page_number then
          { data with no_more_pages := true }
        else data),
       { task with no_more_pages := true }) := by
  simp [processPage, h]

/-- A successful fetch of an unprocessed page with a nonempty extraction:
the unseen items are appended, the high-water mark raised, the page
recorded. -/
theorem processPage_record (max_retries : Nat) (data : PageData) (task : PageTask)
    (items : List String) (h : task.page_number ∉ data.processed_pages)
    (hne : items ≠ []) :
    processPage max_retries data task (.response 200 items) =
      ({ data with
          download_queue := data.download_queue ++ (items.filter fun i =>
            decide (i ∉ data.download_queue ∧ i ∉ data.downloaded)),
          max_page_found := max data.max_page_found task.page_number,
          processed_pages := insert task.page_number data.processed_pages },
       { task with
          items := items.filter fun i =>
            decide (i ∉ data.download_queue ∧ i ∉ data.downloaded),
          processed := true }) := by
  simp [processPage, h, hne]

/-- `requeueIfRetryable` touches only `pending_tasks`, appending the task
exactly when its attempt count is below the ceiling. -/
theorem requeueIfRetryable_spec (max_retries : Nat) (data : PageData) (t : PageTask) :
    (requeueIfRetryable max_retries data t).processed_pages = data.processed_pages ∧
    (requeueIfRetryable max_retries data t).download_queue = data.download_queue ∧
    (requeueIfRetryable max_retries data t).downloaded = data.downloaded ∧
    (requeueIfRetryable max_retries data t).max_page_found = data.max_page_found ∧
    (requeueIfRetryable max_retries data t).no_more_pages = data.no_more_pages ∧
    (requeueIfRetryable max_retries data t).pending_tasks =
      data.pending_tasks ++ (if t.attempt_count < max_retries then [t] else []) := by
  unfold requeueIfRetryable
  split <;> simp

/-! ## C1 — the three-page scenario -/

/-- Claim C1, counterexample: in the completed three-page scenario run the
code never inserts the empty page 3 into `processed_pages` (the empty-page
branch of `_process_page` returns before the record step), so the claimed
end state `processed_pages = {1,2,3}` is false. -/
theorem C1_counterexample :
    ¬ scenarioFinal.data.processed_pages = ({1, 2, 3} : Finset Nat) := by
  decide

/-- Claim C1 as amended: the completed scenario run ends with
`processed_pages = {1,2}` (page 3, being empty, is dropped rather than
recorded), `download_queue = [a,b,c]`, `no_more_pages = true`, and the
worker loop has reached its terminal state. -/
theorem C1_scenario :
    scenarioFinal.data.processed_pages = ({1, 2} : Finset Nat) ∧
    scenarioFinal.data.download_queue = ["a", "b", "c"] ∧
    scenarioFinal.data.no_more_pages = true ∧
    scenarioFinal.done = true := by
  decide

/-! ## C2 — item deduplication -/

/-- Claim C2, counterexample: a single page whose extracted item list is
`[x, x]` gets both copies past the dedup filter (the filter is evaluated
against the pre-batch queue), so `x` enters `download_queue` twice. -/
theorem C2_counterexample :
    (processPage 3 initData task1 (.response 200 ["x", "x"])).1.download_queue
      = ["x", "x"] ∧
    ¬ (processPage 3 initData task1
        (.response 200 ["x", "x"])).1.download_queue.Nodup := by
  decide

/-- Claim C2 as amended: provided the fetched page's extracted item list
contains each identifier at most once, recording the result preserves the
at-most-once property of `download_queue ∪ downloaded`: the queue stays
duplicate-free, the `downloaded` set is untouched, and no queued identifier
lies in `downloaded`. -/
theorem C2_dedup (max_retries : Nat) (data : PageData) (task : PageTask)
    (items : List String) (hnd : items.Nodup)
    (hq : data.download_queue.Nodup)
    (hqd : ∀ i ∈ data.download_queue, i ∉ data.downloaded) :
    (processPage max_retries data task (.response 200 items)).1.download_queue.Nodup ∧
    (processPage max_retries data task (.response 200 items)).1.downloaded
      = data.downloaded ∧
    ∀ i ∈ (processPage max_retries data task (.response 200 items)).1.download_queue,
      i ∉ (processPage max_retries data task (.response 200 items)).1.downloaded := by
  by_cases h : task.page_number ∈ data.processed_pages
  · rw [processPage_mem max_retries data task _ h]
    exact ⟨hq, rfl, hqd⟩
  · by_cases hit : items = []
    · subst hit
      rw [processPage_empty max_retries data task h]
      split <;> exact ⟨hq, rfl, hqd⟩
    · rw [processPage_record max_retries data task items h hit]
      refine ⟨?_, rfl, ?_⟩
      · refine List.Nodup.append hq (hnd.filter _) ?_
        intro a ha hfa
        have := (List.mem_filter.mp hfa).2
        simp only [decide_eq_true_eq] at this
        exact this.1 ha
      · intro i hi
        rcases List.mem_append.mp hi with hiq | hif
        · exact hqd i hiq
        · have := (List.mem_filter.mp hif).2
          simp only [decide_eq_true_eq] at this
          exact this.2

/-- Claim C2 witness: a concrete duplicate-free page on a consistent
frontier. -/
theorem C2_dedup_witness :
    (["a", "b"] : List String).Nodup ∧
    ((processPage 3 initData task1 (.response 200 ["a", "b"])).1.download_queue.Nodup ∧
     (processPage 3 initData task1 (.response 200 ["a", "b"])).1.downloaded
       = initData.downloaded ∧
     ∀ i ∈ (processPage 3 initData task1 (.response 200 ["a", "b"])).1.download_queue,
       i ∉ (processPage 3 initData task1 (.response 200 ["a", "b"])).1.downloaded) :=
  ⟨by decide,
   C2_dedup 3 initData task1 ["a", "b"] (by decide) (by decide) (by decide)⟩

/-! ## C3 — processed pages are recorded once, re-processing is a no-op -/

/-- Claim C3: processing a task whose page number is already in
`processed_pages` is an immediate no-op success — the frontier (all of its
fields, hence `processed_pages`, `download_queue`, `max_page_found` and
`pending_tasks`) is returned unchanged and the task is marked processed; in
particular recording the same page a second time is idempotent, so a page
number enters `processed_pages` at most once per run. -/
theorem C3_processed_idempotent (max_retries : Nat) (data : PageData)
    (task : PageTask) (out : FetchOutcome)
    (h : task.page_number ∈ data.processed_pages) :
    (processPage max_retries data task out).1 = data ∧
    (processPage max_retries data task out).2 = { task with processed := true } := by
  rw [processPage_mem max_retries data task out h]
  exact ⟨rfl, rfl⟩

/-- Claim C3 witness: page 1 is already processed in `dataDone1`; a renewed
attempt leaves the frontier untouched. -/
theorem C3_witness :
    task1.page_number ∈ dataDone1.processed_pages ∧
    ((processPage 3 dataDone1 task1 .readError).1 = dataDone1 ∧
     (processPage 3 dataDone1 task1 .readError).2
       = { task1 with processed := true }) :=
  ⟨by decide, C3_processed_idempotent 3 dataDone1 task1 .readError (by decide)⟩

/-! ## C5 — the exhaustion flag -/

/-- Claim C5: after any single `_process_page` step the frontier's
`no_more_pages` flag is up exactly when it was already up, or the outcome is
a successful (status-200) fetch of a not-yet-processed page that yields zero
items and whose page number strictly exceeds the current high-water mark.
In particular the flag is never reset from true to false. -/
theorem C5_no_more_pages_iff (max_retries : Nat) (data : PageData)
    (task : PageTask) (out : FetchOutcome) :
    (processPage max_retries data task out).1.no_more_pages = true ↔
      data.no_more_pages = true ∨
        (task.page_number ∉ data.processed_pages ∧
         out = .response 200 [] ∧
         data.max_page_found < task.page_number) := by
  by_cases h : task.page_number ∈ data.processed_pages
  · rw [processPage_mem max_retries data task out h]
    simp [h]
  · by_cases hf : out.isFailure = true
    · obtain ⟨e, he⟩ := processPage_fail max_retries data task out h hf
      rw [he]
      have hr := (requeueIfRetryable_spec max_retries data (bumpFailed task e)).2.2.2.2.1
      have hout : out ≠ .response 200 [] := by
        intro hcontra
        subst hcontra
        simp [FetchOutcome.isFailure] at hf
      simp [hr, h, hout]
    · obtain ⟨items, rfl⟩ : ∃ its, out = .response 200 its := by
        cases out with
        | response s items =>
          have : s = 200 := by
            by_contra hs
            simp [FetchOutcome.isFailure, hs] at hf
          exact ⟨items, by rw [this]⟩
        | readError => simp [FetchOutcome.isFailure] at hf
        | timeout => simp [FetchOutcome.isFailure] at hf
        | unexpected msg => simp [FetchOutcome.isFailure] at hf
      by_cases hit : items = []
      · subst hit
        rw [processPage_empty max_retries data task h]
        by_cases hmax : data.max_page_found < task.page_number
        · simp [hmax, h]
        · simp [hmax, h]
      · rw [processPage_record max_retries data task items h hit]
        simp [h, hit]

/-! ## C7 — status-code classification -/

/-- Claim C7, counterexample: a 2xx response with status 201 carrying one
item is not treated as a success — the page is not recorded, no item is
queued, and the attempt is counted as a failed HTTP-status attempt. -/
theorem C7_counterexample :
    (processPage 3 initData task1 (.response 201 ["x"])).1.processed_pages = ∅ ∧
    (processPage 3 initData task1 (.response 201 ["x"])).1.download_queue = [] ∧
    (processPage 3 initData task1 (.response 201 ["x"])).2.attempt_count = 1 ∧
    (processPage 3 initData task1 (.response 201 ["x"])).2.last_error
      = some "HTTP error 201" := by
  decide

/-- Claim C7 as amended: only a response with status code exactly 200 is a
success; a response with any other status code — 2xx codes other than 200
included — is classified as an http-status failure (attempt count bumped,
`HTTP error` recorded, task handed to the retry policy) and records nothing,
while a status-200 response with a nonempty extraction proceeds to result
recording. -/
theorem C7_status_classification (max_retries : Nat) (data : PageData)
    (task : PageTask) (s : Nat) (items : List String)
    (h : task.page_number ∉ data.processed_pages) (hs : s ≠ 200) :
    (processPage max_retries data task (.response s items)).1.processed_pages
      = data.processed_pages ∧
    (processPage max_retries data task (.response s items)).1.download_queue
      = data.download_queue ∧
    (processPage max_retries data task (.response s items)).2.attempt_count
      = task.attempt_count + 1 ∧
    (processPage max_retries data task (.response s items)).2.last_error
      = some ("HTTP error " ++ toString s) ∧
    (processPage max_retries data task (.response s items)).1.pending_tasks
      = data.pending_tasks ++
        (if task.attempt_count + 1 < max_retries
         then [bumpFailed task ("HTTP error " ++ toString s)] else []) ∧
    ∀ its : List String, its ≠ [] →
      (processPage max_retries data task (.response 200 its)).1.processed_pages
        = insert task.page_number data.processed_pages := by
  have hp : processPage max_retries data task (.response s items) =
      (requeueIfRetryable max_retries data
        (bumpFailed task ("HTTP error " ++ toString s)),
       bumpFailed task ("HTTP error " ++ toString s)) := by
    simp [processPage, h, hs]
  obtain ⟨h1, h2, _, _, _, h6⟩ :=
    requeueIfRetryable_spec max_retries data
      (bumpFailed task ("HTTP error " ++ toString s))
  refine ⟨by rw [hp]; exact h1, by rw [hp]; exact h2, by rw [hp]; rfl,
    by rw [hp]; rfl, ?_, ?_⟩
  · rw [hp]
    rw [h6]
    rfl
  · intro its hits
    rw [processPage_record max_retries data task its h hits]

/-- Claim C7 witness: a concrete 404 on a fresh frontier. -/
theorem C7_witness :
    (task1.page_number ∉ initData.processed_pages ∧ (404 : Nat) ≠ 200) ∧
    ((processPage 3 initData task1 (.response 404 [])).1.processed_pages
       = initData.processed_pages ∧
     (processPage 3 initData task1 (.response 404 [])).1.download_queue
       = initData.download_queue ∧
     (processPage 3 initData task1 (.response 404 [])).2.attempt_count
       = task1.attempt_count + 1 ∧
     (processPage 3 initData task1 (.response 404 [])).2.last_error
       = some ("HTTP error " ++ toString 404) ∧
     (processPage 3 initData task1 (.response 404 [])).1.pending_tasks
       = initData.pending_tasks ++
         (if task1.attempt_count + 1 < 3
          then [bumpFailed task1 ("HTTP error " ++ toString 404)] else []) ∧
     ∀ its : List String, its ≠ [] →
       (processPage 3 initData task1 (.response 200 its)).1.processed_pages
         = insert task1.page_number initData.processed_pages) :=
  ⟨⟨by decide, by decide⟩,
   C7_status_classification 3 initData task1 404 [] (by decide) (by decide)⟩

/-! ## C9 — frame of the empty-page branch -/

/-- Claim C9: a successfully fetched page with an empty extraction is
silently dropped — the page number never enters `processed_pages`, the task
is not re-enqueued (the pending queue is untouched), the task's own
`no_more_pages` flag is raised unconditionally (whether or not the page
number exceeds the high-water mark), and the worker therefore abandons the
remainder of its chunk. -/
theorem C9_empty_page_dropped (max_retries : Nat) (src : Nat → List String)
    (data : PageData) (task : PageTask) (ts : List PageTask)
    (h : task.page_number ∉ data.processed_pages)
    (hsrc : src task.page_number = []) :
    (processPage max_retries data task (.response 200 [])).1.processed_pages
      = data.processed_pages ∧
    (processPage max_retries data task (.response 200 [])).1.pending_tasks
      = data.pending_tasks ∧
    (processPage max_retries data task (.response 200 [])).2.no_more_pages
      = true ∧
    processChunk max_retries src data (task :: ts)
      = (processPage max_retries data task (.response 200 [])).1 := by
  have he := processPage_empty max_retries data task h
  refine ⟨by rw [he]; split <;> rfl, by rw [he]; split <;> rfl,
    by rw [he], ?_⟩
  show processChunk max_retries src data (task :: ts) = _
  rw [processChunk, hsrc, he]
  rfl

/-- Claim C9 witness: page 3 comes back empty while the high-water mark is
already 5, so the frontier flag stays down, yet the page is dropped, the
task's flag is raised and the rest of the chunk is skipped. -/
theorem C9_witness :
    (task3.page_number ∉ dataMax5.processed_pages ∧
     (fun _ : Nat => ([] : List String)) task3.page_number = []) ∧
    ((processPage 2 dataMax5 task3 (.response 200 [])).1.processed_pages
       = dataMax5.processed_pages ∧
     (processPage 2 dataMax5 task3 (.response 200 [])).1.pending_tasks
       = dataMax5.pending_tasks ∧
     (processPage 2 dataMax5 task3 (.response 200 [])).2.no_more_pages = true ∧
     processChunk 2 (fun _ => []) dataMax5 (task3 :: [task1])
       = (processPage 2 dataMax5 task3 (.response 200 [])).1) :=
  ⟨⟨by decide, rfl⟩,
   C9_empty_page_dropped 2 (fun _ => []) dataMax5 task3 [task1]
     (by decide) rfl⟩

/-! ## C10 — frame of the failure branches -/

/-- Claim C10: when a fetch attempt fails for any reason (non-200 status,
read error, timeout, or unexpected exception), the only frontier field that
can change is `pending_tasks`, by appending the failed task;
`processed_pages`, `download_queue`, `downloaded`, `max_page_found` and
`no_more_pages` keep their prior values. -/
theorem C10_failure_frame (max_retries : Nat) (data : PageData)
    (task : PageTask) (out : FetchOutcome) (hf : out.isFailure = true) :
    (processPage max_retries data task out).1.processed_pages
      = data.processed_pages ∧
    (processPage max_retries data task out).1.download_queue
      = data.download_queue ∧
    (processPage max_retries data task out).1.downloaded = data.downloaded ∧
    (processPage max_retries data task out).1.max_page_found
      = data.max_page_found ∧
    (processPage max_retries data task out).1.no_more_pages
      = data.no_more_pages ∧
    ((processPage max_retries data task out).1.pending_tasks
       = data.pending_tasks ∨
     ∃ t, (processPage max_retries data task out).1.pending_tasks
       = data.pending_tasks ++ [t]) := by
  by_cases h : task.page_number ∈ data.processed_pages
  · rw [processPage_mem max_retries data task out h]
    exact ⟨rfl, rfl, rfl, rfl, rfl, Or.inl rfl⟩
  · obtain ⟨e, he⟩ := processPage_fail max_retries data task out h hf
    rw [he]
    obtain ⟨h1, h2, h3, h4, h5, h6⟩ :=
      requeueIfRetryable_spec max_retries data (bumpFailed task e)
    refine ⟨h1, h2, h3, h4, h5, ?_⟩
    by_cases hc : (bumpFailed task e).attempt_count < max_retries
    · exact Or.inr ⟨bumpFailed task e, by rw [h6, if_pos hc]⟩
    · refine Or.inl ?_
      rw [h6, if_neg hc]
      simp

/-- Claim C10 witness: a concrete timeout on a fresh frontier. -/
theorem C10_witness :
    FetchOutcome.timeout.isFailure = true ∧
    ((processPage 3 initData task1 .timeout).1.processed_pages
       = initData.processed_pages ∧
     (processPage 3 initData task1 .timeout).1.download_queue
       = initData.download_queue ∧
     (processPage 3 initData task1 .timeout).1.downloaded
       = initData.downloaded ∧
     (processPage 3 initData task1 .timeout).1.max_page_found
       = initData.max_page_found ∧
     (processPage 3 initData task1 .timeout).1.no_more_pages
       = initData.no_more_pages ∧
     ((processPage 3 initData task1 .timeout).1.pending_tasks
        = initData.pending_tasks ∨
      ∃ t, (processPage 3 initData task1 .timeout).1.pending_tasks
        = initData.pending_tasks ++ [t])) :=
  ⟨rfl, C10_failure_frame 3 initData task1 .timeout rfl⟩

/-! ## C8 — disjoint allocation of fresh page numbers -/

/-- When the pending queue is empty and the frontier is not exhausted,
`_get_next_tasks` reserves exactly the `count` page numbers following the
cursor, advances the cursor past all of them, mints tasks for the reserved
numbers not already processed, and leaves the frontier unchanged. -/
theorem getNextTasks_empty_pending (request : ParseRequest) (w c np : Nat)
    (data : PageData) (hpend : data.pending_tasks = [])
    (hnm : data.no_more_pages = false) (hc : 0 < c) :
    getNextTasks request w c np data =
      ((((List.range' (np + 1) c).filter fun p =>
          decide (p ∉ data.processed_pages)).map fun p => mkTask request w p),
       np + c, data) := by
  obtain ⟨pend, pp, dq, dl, mx, nm, herr⟩ := data
  simp only at hpend hnm
  subst hpend
  subst hnm
  unfold getNextTasks
  simp [hc]

/-- With every processed page bounded by the cursor, the allocation filter
removes nothing: the fresh pages are the whole reserved range. -/
theorem filter_range'_all (np c : Nat) (pp : Finset Nat)
    (h : ∀ p ∈ pp, p ≤ np) :
    (List.range' (np + 1) c).filter (fun p => decide (p ∉ pp))
      = List.range' (np + 1) c := by
  apply List.filter_eq_self.mpr
  intro p hp
  have h1 := (List.mem_range'_1.mp hp).1
  simp only [decide_eq_true_eq]
  intro hmem
  exact absurd (h p hmem) (by omega)

/-- Claim C8: starting from an empty pending queue on a non-exhausted
frontier, an allocation invocation advances the cursor from `np` to
`np + c₁`, returns tasks for exactly the reserved numbers
`np+1 … np+c₁` not already in `processed_pages`, and a second invocation
(from the advanced cursor) does the same for `np+c₁+1 … np+c₁+c₂`; the two
invocations' page-number sets are pairwise disjoint. -/
theorem C8_disjoint_allocation (request : ParseRequest) (w1 w2 c1 c2 np : Nat)
    (data : PageData) (hpend : data.pending_tasks = [])
    (hnm : data.no_more_pages = false) (h1 : 0 < c1) (h2 : 0 < c2) :
    (getNextTasks request w1 c1 np data).2.1 = np + c1 ∧
    ((getNextTasks request w1 c1 np data).1.map PageTask.page_number
      = (List.range' (np + 1) c1).filter fun p =>
          decide (p ∉ data.processed_pages)) ∧
    ((getNextTasks request w2 c2 (np + c1)
        (getNextTasks request w1 c1 np data).2.2).1.map PageTask.page_number
      = (List.range' (np + c1 + 1) c2).filter fun p =>
          decide (p ∉ data.processed_pages)) ∧
    ∀ t ∈ (getNextTasks request w1 c1 np data).1,
      ∀ u ∈ (getNextTasks request w2 c2 (np + c1)
          (getNextTasks request w1 c1 np data).2.2).1,
        t.page_number ≠ u.page_number := by
  have e1 := getNextTasks_empty_pending request w1 c1 np data hpend hnm h1
  have e2 := getNextTasks_empty_pending request w2 c2 (np + c1) data hpend hnm h2
  rw [e1]
  refine ⟨rfl, ?_, ?_, ?_⟩
  · rw [List.map_map]
    apply List.map_id'
  · show (getNextTasks request w2 c2 (np + c1) data).1.map PageTask.page_number = _
    rw [e2, List.map_map]
    apply List.map_id'
  · show ∀ t ∈ _, ∀ u ∈ (getNextTasks request w2 c2 (np + c1) data).1, _
    rw [e2]
    intro t ht u hu
    simp only [List.mem_map] at ht hu
    obtain ⟨p, hp, rfl⟩ := ht
    obtain ⟨q, hq, rfl⟩ := hu
    have hp1 := (List.mem_range'_1.mp (List.mem_of_mem_filter hp)).2
    have hq1 := (List.mem_range'_1.mp (List.mem_of_mem_filter hq)).1
    show p ≠ q
    omega

/-- Claim C8 witness: two consecutive allocations of 2 pages each from
cursor 0, with page 2 already processed. -/
theorem C8_witness :
    ((⟨[], {2}, [], ∅, 2, false, false⟩ : PageData).pending_tasks = [] ∧
     (⟨[], {2}, [], ∅, 2, false, false⟩ : PageData).no_more_pages = false ∧
     (0 : Nat) < 2) ∧
    ((getNextTasks req0 0 2 0 ⟨[], {2}, [], ∅, 2, false, false⟩).2.1 = 0 + 2 ∧
     ((getNextTasks req0 0 2 0 ⟨[], {2}, [], ∅, 2, false, false⟩).1.map
         PageTask.page_number
       = (List.range' (0 + 1) 2).filter fun p =>
           decide (p ∉ (⟨[], {2}, [], ∅, 2, false, false⟩ : PageData).processed_pages)) ∧
     ((getNextTasks req0 1 2 (0 + 2)
         (getNextTasks req0 0 2 0 ⟨[], {2}, [], ∅, 2, false, false⟩).2.2).1.map
         PageTask.page_number
       = (List.range' (0 + 2 + 1) 2).filter fun p =>
           decide (p ∉ (⟨[], {2}, [], ∅, 2, false, false⟩ : PageData).processed_pages)) ∧
     ∀ t ∈ (getNextTasks req0 0 2 0 ⟨[], {2}, [], ∅, 2, false, false⟩).1,
       ∀ u ∈ (getNextTasks req0 1 2 (0 + 2)
           (getNextTasks req0 0 2 0 ⟨[], {2}, [], ∅, 2, false, false⟩).2.2).1,
         t.page_number ≠ u.page_number) :=
  ⟨⟨rfl, rfl, by decide⟩,
   C8_disjoint_allocation req0 0 1 2 2 0 ⟨[], {2}, [], ∅, 2, false, false⟩
     rfl rfl (by decide) (by decide)⟩

/-! ## C4 — the retry budget -/

/-- Drain lemma: a task with `j` attempts left in its budget
(`attempt_count = max_retries − j`, `0 < j ≤ max_retries`) that always
fails is attempted exactly `j` more times, after which the pending queue is
empty again and `processed_pages` is untouched. -/
theorem failAttempts_aux (m : Nat) (out : FetchOutcome)
    (hf : out.isFailure = true) :
    ∀ j, 0 < j → j ≤ m → ∀ fuel, j ≤ fuel →
      ∀ (data : PageData) (task : PageTask),
      data.pending_tasks = [] →
      task.page_number ∉ data.processed_pages →
      task.attempt_count = m - j →
      (failAttempts m out fuel data task).1 = j ∧
      (failAttempts m out fuel data task).2.pending_tasks = [] ∧
      (failAttempts m out fuel data task).2.processed_pages
        = data.processed_pages := by
  intro j
  induction j with
  | zero => intro h0; exact absurd h0 (lt_irrefl 0)
  | succ j ih =>
    intro _ hjm fuel hfuel data task hpend hpage hcnt
    obtain ⟨fuel, rfl⟩ : ∃ f, fuel = f + 1 := ⟨fuel - 1, by omega⟩
    obtain ⟨e, he⟩ := processPage_fail m data task out hpage hf
    by_cases hj : j = 0
    · subst hj
      have hble : ¬ (bumpFailed task e).attempt_count < m := by
        show ¬ task.attempt_count + 1 < m
        omega
      have hreq : requeueIfRetryable m data (bumpFailed task e) = data := by
        unfold requeueIfRetryable
        rw [if_neg hble]
      simp only [failAttempts, he, hreq, hpend]
      exact ⟨trivial, trivial, trivial⟩
    · have hlt : (bumpFailed task e).attempt_count < m := by
        show task.attempt_count + 1 < m
        omega
      have hreq : requeueIfRetryable m data (bumpFailed task e) =
          { data with pending_tasks :=
              data.pending_tasks ++ [bumpFailed task e] } := by
        unfold requeueIfRetryable
        rw [if_pos hlt]
      have hrec := ih (by omega) (by omega) fuel (by omega)
        { data with pending_tasks := [] } (bumpFailed task e)
        rfl hpage (by show task.attempt_count + 1 = m - j; omega)
      simp only [failAttempts, he, hreq, hpend, List.nil_append]
      exact ⟨by rw [hrec.1], hrec.2.1, hrec.2.2⟩

/-- Claim C4, counterexample: with `max_retries = 0` a permanently failing
task is still attempted once — the worker always performs the first fetch
before the retry check — so it is not attempted "exactly max_retries = 0
times". -/
theorem C4_counterexample :
    (failAttempts 0 .readError 1 initData task1).1 ≠ 0 := by
  decide

/-- Claim C4 as amended: a task whose fetch always fails is attempted
exactly `max max_retries 1` times and then dropped (the first attempt is
made unconditionally; thereafter each failed attempt increments the count
and re-appends the task to `pending_tasks` iff the incremented count is
still below `max_retries`); on exhaustion the task is not resubmitted and
its page never enters `processed_pages`. -/
theorem C4_retry_budget (m : Nat) (out : FetchOutcome) (data : PageData)
    (task : PageTask) (hf : out.isFailure = true)
    (hpend : data.pending_tasks = [])
    (hpage : task.page_number ∉ data.processed_pages)
    (hcnt : task.attempt_count = 0) :
    ((failAttempts m out (m + 1) data task).1 = max m 1 ∧
     (failAttempts m out (m + 1) data task).2.pending_tasks = [] ∧
     (failAttempts m out (m + 1) data task).2.processed_pages
       = data.processed_pages) ∧
    ∀ (d : PageData) (t : PageTask), t.page_number ∉ d.processed_pages →
      ∃ t', (processPage m d t out).2 = t' ∧
        t'.attempt_count = t.attempt_count + 1 ∧
        (processPage m d t out).1.pending_tasks
          = d.pending_tasks ++ (if t.attempt_count + 1 < m then [t'] else []) := by
  constructor
  · rcases Nat.eq_zero_or_pos m with hm | hm
    · subst hm
      obtain ⟨e, he⟩ := processPage_fail 0 data task out hpage hf
      have hreq : requeueIfRetryable 0 data (bumpFailed task e) = data := by
        unfold requeueIfRetryable
        rw [if_neg (by omega)]
      simp only [failAttempts, he, hreq, hpend]
      exact ⟨by simp, trivial, trivial⟩
    · have hres := failAttempts_aux m out hf m hm le_rfl (m + 1) (by omega)
        data task hpend hpage (by omega)
      rw [Nat.max_eq_left hm]
      exact hres
  · intro d t hpt
    obtain ⟨e, he⟩ := processPage_fail m d t out hpt hf
    refine ⟨bumpFailed t e, by rw [he], rfl, ?_⟩
    rw [he]
    exact (requeueIfRetryable_spec m d (bumpFailed t e)).2.2.2.2.2

/-- Claim C4 witness: `max_retries = 2`, a permanently timing-out task. -/
theorem C4_witness :
    (FetchOutcome.timeout.isFailure = true ∧ initData.pending_tasks = [] ∧
     task1.page_number ∉ initData.processed_pages ∧
     task1.attempt_count = 0) ∧
    (((failAttempts 2 .timeout 3 initData task1).1 = max 2 1 ∧
      (failAttempts 2 .timeout 3 initData task1).2.pending_tasks = [] ∧
      (failAttempts 2 .timeout 3 initData task1).2.processed_pages
        = initData.processed_pages) ∧
     ∀ (d : PageData) (t : PageTask), t.page_number ∉ d.processed_pages →
       ∃ t', (processPage 2 d t .timeout).2 = t' ∧
         t'.attempt_count = t.attempt_count + 1 ∧
         (processPage 2 d t .timeout).1.pending_tasks
           = d.pending_tasks ++
             (if t.attempt_count + 1 < 2 then [t'] else [])) :=
  ⟨⟨rfl, rfl, by decide, rfl⟩,
   C4_retry_budget 2 .timeout initData task1 rfl rfl (by decide) rfl⟩

/-! ## C6 — termination on a finite source -/

@[simp] theorem mkTask_page_number (request : ParseRequest) (w p : Nat) :
    (mkTask request w p).page_number = p := rfl

@[simp] theorem mkTask_no_more_pages (request : ParseRequest) (w p : Nat) :
    (mkTask request w p).no_more_pages = false := rfl

/-- Processing a chunk of fresh tasks for consecutive pages that all yield
items: every page is recorded, nothing is re-enqueued, the exhaustion flag
stays down, and the high-water mark and processed pages stay below the end
of the chunk. -/
theorem processChunk_no_empty (m : Nat) (src : Nat → List String)
    (request : ParseRequest) (w : Nat) :
    ∀ (c a : Nat) (data : PageData),
      data.pending_tasks = [] → data.no_more_pages = false →
      data.max_page_found < a → (∀ p ∈ data.processed_pages, p < a) →
      (∀ i, i < c → src (a + i) ≠ []) →
      (processChunk m src data
          ((List.range' a c).map fun p => mkTask request w p)).pending_tasks = [] ∧
      (processChunk m src data
          ((List.range' a c).map fun p => mkTask request w p)).no_more_pages = false ∧
      (processChunk m src data
          ((List.range' a c).map fun p => mkTask request w p)).max_page_found < a + c ∧
      ∀ p ∈ (processChunk m src data
          ((List.range' a c).map fun p => mkTask request w p)).processed_pages,
        p < a + c := by
  intro c
  induction c with
  | zero =>
    intro a data h1 h2 h3 h4 _
    have hnil : ((List.range' a 0).map fun p => mkTask request w p) = [] := rfl
    rw [hnil]
    simp only [processChunk]
    exact ⟨h1, h2, by omega, fun p hp => by have := h4 p hp; omega⟩
  | succ c ih =>
    intro a data h1 h2 h3 h4 h5
    have hcons : ((List.range' a (c + 1)).map fun p => mkTask request w p)
        = mkTask request w a
          :: ((List.range' (a + 1) c).map fun p => mkTask request w p) := by
      rw [List.range'_succ]
      rfl
    rw [hcons]
    have hpage : (mkTask request w a).page_number ∉ data.processed_pages := by
      simp only [mkTask_page_number]
      intro hmem
      exact absurd (h4 a hmem) (lt_irrefl a)
    have hsa : src (mkTask request w a).page_number ≠ [] := by
      simp only [mkTask_page_number]
      have := h5 0 (by omega)
      simpa using this
    have hrec := processPage_record m data (mkTask request w a)
      (src (mkTask request w a).page_number) hpage hsa
    simp only [processChunk, hrec, mkTask_no_more_pages, Bool.false_eq_true,
      if_false]
    have hmax2 : (max data.max_page_found (mkTask request w a).page_number) < a + 1 := by
      simp only [mkTask_page_number]
      omega
    have hih := ih (a + 1)
      { data with
        download_queue := data.download_queue ++
          ((src (mkTask request w a).page_number).filter fun i =>
            decide (i ∉ data.download_queue ∧ i ∉ data.downloaded)),
        max_page_found := max data.max_page_found (mkTask request w a).page_number,
        processed_pages := insert (mkTask request w a).page_number data.processed_pages }
      h1 h2 hmax2
      (by
        intro p hp
        simp only [mkTask_page_number] at hp
        rcases Finset.mem_insert.mp hp with hpa | hpd
        · omega
        · have := h4 p hpd
          omega)
      (by
        intro i hi
        have := h5 (i + 1) (by omega)
        rwa [show a + (i + 1) = a + 1 + i by omega] at this)
    refine ⟨hih.1, hih.2.1, by have := hih.2.2.1; omega, ?_⟩
    intro p hp
    have := hih.2.2.2 p hp
    omega

/-- Processing a chunk of fresh tasks for consecutive pages whose first
empty page sits inside the chunk: the pages before it are recorded, the
empty one raises the exhaustion flag (it is necessarily beyond the
high-water mark) and aborts the chunk; nothing is re-enqueued. -/
theorem processChunk_hits_empty (m : Nat) (src : Nat → List String)
    (request : ParseRequest) (w : Nat) :
    ∀ (j c a : Nat) (data : PageData),
      j < c →
      data.pending_tasks = [] → data.no_more_pages = false →
      data.max_page_found < a → (∀ p ∈ data.processed_pages, p < a) →
      (∀ i, i < j → src (a + i) ≠ []) →
      src (a + j) = [] →
      (processChunk m src data
          ((List.range' a c).map fun p => mkTask request w p)).pending_tasks = [] ∧
      (processChunk m src data
          ((List.range' a c).map fun p => mkTask request w p)).no_more_pages = true := by
  intro j
  induction j with
  | zero =>
    intro c a data hjc h1 h2 h3 h4 _ h6
    obtain ⟨c, rfl⟩ : ∃ d, c = d + 1 := ⟨c - 1, by omega⟩
    have hcons : ((List.range' a (c + 1)).map fun p => mkTask request w p)
        = mkTask request w a
          :: ((List.range' (a + 1) c).map fun p => mkTask request w p) := by
      rw [List.range'_succ]
      rfl
    rw [hcons]
    have hpage : (mkTask request w a).page_number ∉ data.processed_pages := by
      simp only [mkTask_page_number]
      intro hmem
      exact absurd (h4 a hmem) (lt_irrefl a)
    have hsa : src (mkTask request w a).page_number = [] := by
      simp only [mkTask_page_number]
      simpa using h6
    have hemp := processPage_empty m data (mkTask request w a) hpage
    simp only [processChunk, hsa, hemp]
    have hm : data.max_page_found < (mkTask request w a).page_number := by
      simpa using h3
    rw [if_pos hm]
    constructor
    · show ({ data with no_more_pages := true } : PageData).pending_tasks = []
      exact h1
    · rfl
  | succ j ih =>
    intro c a data hjc h1 h2 h3 h4 h5 h6
    obtain ⟨c, rfl⟩ : ∃ d, c = d + 1 := ⟨c - 1, by omega⟩
    have hcons : ((List.range' a (c + 1)).map fun p => mkTask request w p)
        = mkTask request w a
          :: ((List.range' (a + 1) c).map fun p => mkTask request w p) := by
      rw [List.range'_succ]
      rfl
    rw [hcons]
    have hpage : (mkTask request w a).page_number ∉ data.processed_pages := by
      simp only [mkTask_page_number]
      intro hmem
      exact absurd (h4 a hmem) (lt_irrefl a)
    have hsa : src (mkTask request w a).page_number ≠ [] := by
      simp only [mkTask_page_number]
      have := h5 0 (by omega)
      simpa using this
    have hrec := processPage_record m data (mkTask request w a)
      (src (mkTask request w a).page_number) hpage hsa
    simp only [processChunk, hrec, mkTask_no_more_pages, Bool.false_eq_true,
      if_false]
    have hmax2 : (max data.max_page_found (mkTask request w a).page_number) < a + 1 := by
      simp only [mkTask_page_number]
      omega
    exact ih c (a + 1)
      { data with
        download_queue := data.download_queue ++
          ((src (mkTask request w a).page_number).filter fun i =>
            decide (i ∉ data.download_queue ∧ i ∉ data.downloaded)),
        max_page_found := max data.max_page_found (mkTask request w a).page_number,
        processed_pages := insert (mkTask request w a).page_number data.processed_pages }
      (by omega) h1 h2 hmax2
      (by
        intro p hp
        simp only [mkTask_page_number] at hp
        rcases Finset.mem_insert.mp hp with hpa | hpd
        · omega
        · have := h4 p hpd
          omega)
      (by
        intro i hi
        have := h5 (i + 1) (by omega)
        rwa [show a + (i + 1) = a + 1 + i by omega] at this)
      (by
        have := h6
        rwa [show a + (j + 1) = a + 1 + j by omega] at this)

/-- Under the invariant, one loop iteration allocates the next `chunk`
fresh pages and processes them. -/
theorem workerIter_step (request : ParseRequest) (chunk m : Nat)
    (src : Nat → List String) (hc : 0 < chunk) (s : WState) (hI : WInv s) :
    workerIter request chunk m src s =
      ⟨s.next_page + chunk,
       processChunk m src s.data
         ((List.range' (s.next_page + 1) chunk).map fun p => mkTask request 0 p),
       false⟩ := by
  obtain ⟨hdone, hpend, hnm, hmax, hproc⟩ := hI
  have e1 := getNextTasks_empty_pending request 0 chunk s.next_page s.data hpend hnm hc
  rw [filter_range'_all s.next_page chunk s.data.processed_pages hproc] at e1
  have hne : ((List.range' (s.next_page + 1) chunk).map fun p =>
      mkTask request 0 p) ≠ [] := by
    simp [List.range'_eq_nil]
    omega
  simp only [workerIter, hdone, Bool.false_eq_true, if_false, e1]
  rw [if_neg hne]

/-- A still-running worker that sees the exhaustion flag up and the pending
queue empty exits its loop on the next iteration. -/
theorem workerIter_terminal (request : ParseRequest) (chunk m : Nat)
    (src : Nat → List String) (s : WState) (hdone : s.done = false)
    (hnm : s.data.no_more_pages = true) (hpend : s.data.pending_tasks = []) :
    (workerIter request chunk m src s).done = true := by
  obtain ⟨np, data, d⟩ := s
  simp only at hdone hnm hpend
  subst hdone
  obtain ⟨pend, pp, dq, dl, mx, nm, herr⟩ := data
  simp only at hnm hpend
  subst hnm
  subst hpend
  simp [workerIter, getNextTasks]

/-- When one of the `chunk` pages after the cursor is empty, the worker is
done within two iterations: the first raises the exhaustion flag and aborts
the chunk, the second observes it and exits. -/
theorem workerIter_hits_empty (request : ParseRequest) (chunk m : Nat)
    (src : Nat → List String) (hc : 0 < chunk) (s : WState) (hI : WInv s)
    (hex : ∃ j, j < chunk ∧ src (s.next_page + 1 + j) = []) :
    ((workerIter request chunk m src)^[2] s).done = true := by
  obtain ⟨j, hj, hsj⟩ := hex
  have hexx : ∃ i, src (s.next_page + 1 + i) = [] := ⟨j, hsj⟩
  set j0 := Nat.find hexx with hj0
  have hspec : src (s.next_page + 1 + j0) = [] := Nat.find_spec hexx
  have hmin : ∀ i, i < j0 → src (s.next_page + 1 + i) ≠ [] := by
    intro i hi
    exact Nat.find_min hexx hi
  have hj0c : j0 < chunk := by
    have : j0 ≤ j := Nat.find_min' hexx hsj
    omega
  obtain ⟨hdone, hpend, hnm, hmax, hproc⟩ := hI
  have hchunk := processChunk_hits_empty m src request 0 j0 chunk
    (s.next_page + 1) s.data hj0c hpend hnm (by omega)
    (fun p hp => by have := hproc p hp; omega) hmin hspec
  have hstep := workerIter_step request chunk m src hc s
    ⟨hdone, hpend, hnm, hmax, hproc⟩
  have h2 : (workerIter request chunk m src)^[2] s
      = workerIter request chunk m src (workerIter request chunk m src s) := by
    rw [Function.iterate_succ_apply, Function.iterate_one]
  rw [h2, hstep]
  exact workerIter_terminal request chunk m src _ rfl hchunk.2 hchunk.1

/-- From any state satisfying the invariant, the worker loop reaches its
terminal state in finitely many iterations, provided every page beyond `K`
is empty. -/
theorem workerIter_reaches_done (request : ParseRequest) (chunk m K : Nat)
    (src : Nat → List String) (hc : 0 < chunk)
    (hK : ∀ p, K < p → src p = []) :
    ∀ s : WState, WInv s →
      ∃ n, ((workerIter request chunk m src)^[n] s).done = true := by
  suffices h : ∀ d (s : WState), K + 1 - s.next_page ≤ d → WInv s →
      ∃ n, ((workerIter request chunk m src)^[n] s).done = true by
    intro s hs
    exact h (K + 1 - s.next_page) s le_rfl hs
  intro d
  induction d with
  | zero =>
    intro s hd hI
    refine ⟨2, workerIter_hits_empty request chunk m src hc s hI ⟨0, hc, ?_⟩⟩
    exact hK (s.next_page + 1 + 0) (by omega)
  | succ d ih =>
    intro s hd hI
    by_cases hex : ∃ j, j < chunk ∧ src (s.next_page + 1 + j) = []
    · exact ⟨2, workerIter_hits_empty request chunk m src hc s hI hex⟩
    · push_neg at hex
      obtain ⟨hdone, hpend, hnm, hmax, hproc⟩ := hI
      have hclean : ∀ i, i < chunk → src (s.next_page + 1 + i) ≠ [] := hex
      have hchunk := processChunk_no_empty m src request 0 chunk
        (s.next_page + 1) s.data hpend hnm (by omega)
        (fun p hp => by have := hproc p hp; omega) hclean
      have hstep := workerIter_step request chunk m src hc s
        ⟨hdone, hpend, hnm, hmax, hproc⟩
      have hKbound : s.next_page + chunk ≤ K := by
        by_contra hgt
        push_neg at hgt
        rcases Nat.lt_or_ge s.next_page K with hlt | hge
        · exact hclean (K - s.next_page) (by omega)
            (hK (s.next_page + 1 + (K - s.next_page)) (by omega))
        · exact hclean 0 hc (hK (s.next_page + 1 + 0) (by omega))
      have hI1 : WInv ⟨s.next_page + chunk,
          processChunk m src s.data
            ((List.range' (s.next_page + 1) chunk).map fun p =>
              mkTask request 0 p), false⟩ := by
        refine ⟨rfl, hchunk.1, hchunk.2.1, ?_, ?_⟩
        · show (processChunk m src s.data
            ((List.range' (s.next_page + 1) chunk).map fun p =>
              mkTask request 0 p)).max_page_found ≤ s.next_page + chunk
          have := hchunk.2.2.1
          omega
        · intro p hp
          have := hchunk.2.2.2 p hp
          show p ≤ s.next_page + chunk
          omega
      obtain ⟨n, hn⟩ := ih ⟨s.next_page + chunk,
          processChunk m src s.data
            ((List.range' (s.next_page + 1) chunk).map fun p =>
              mkTask request 0 p), false⟩
        (by show K + 1 - (s.next_page + chunk) ≤ d; omega) hI1
      refine ⟨n + 1, ?_⟩
      rw [Function.iterate_succ_apply, hstep]
      exact hn

/-- Claim C6: for a finite source — every fetch succeeds and every page
number greater than some `K` yields zero items — the worker loop, started
on a fresh frontier, reaches its terminal state (it exits once
`no_more_pages` is set and `pending_tasks` is empty) after finitely many
iterations: the run completes rather than hanging. -/
theorem C6_termination (request : ParseRequest) (chunk max_retries K : Nat)
    (src : Nat → List String) (hc : 0 < chunk)
    (hK : ∀ p, K < p → src p = []) :
    ∃ n, ((workerIter request chunk max_retries src)^[n] initWState).done
      = true :=
  workerIter_reaches_done request chunk max_retries K src hc hK initWState
    ⟨rfl, rfl, rfl, le_rfl, by intro p hp; simp [initWState, initData] at hp⟩

/-- Claim C6 witness: the everywhere-empty source with chunk size 1. -/
theorem C6_witness :
    ((0 : Nat) < 1 ∧ ∀ p : Nat, 0 < p → (fun _ : Nat => ([] : List String)) p = []) ∧
    ∃ n, ((workerIter req0 1 0 fun _ => [])^[n] initWState).done = true :=
  ⟨⟨by decide, fun _ _ => rfl⟩,
   C6_termination req0 1 0 0 (fun _ => []) (by decide) (fun _ _ => rfl)⟩
